import Mathlib

/-!
Verification development for the `nomads_laws` retrieval pipeline
(`app/core/embeddings.py`, `app/services/gemini.py`).

The Python code is shallowly embedded: external SDK calls (the Vertex AI
embedding model, the vector-search index endpoint, the Gemini generation
model) are modelled as oracle functions stored in an environment record;
a raising call is an `Except.error`, a `None` field is `Option.none`.
Python `int` arithmetic is `Nat`/`Int` with explicit semantics for
`range`, truthiness of lists, and slice operations.
-/

namespace NomadsLaws

/-- Helper for `pySplit`: walk the characters, accumulating the current
word (reversed); whitespace ends a word, runs of whitespace produce no
empty words. -/
def pySplitAux : List Char → List Char → List String
  | [], acc => if acc.isEmpty then [] else [String.mk acc.reverse]
  | c :: cs, acc =>
    if c.isWhitespace then
      if acc.isEmpty then pySplitAux cs []
      else String.mk acc.reverse :: pySplitAux cs []
    else pySplitAux cs (c :: acc)

/-- Python `str.split()` with no arguments: split on runs of whitespace,
dropping empty pieces. -/
def pySplit (s : String) : List String :=
  pySplitAux s.toList []

/-- Python `range(0, stop, step)` for a positive `step`: the list
`[0, step, 2*step, ...]` of all multiples of `step` below `stop`;
its length is `⌈stop / step⌉`. -/
def pyRangeUp (stop step : Nat) : List Nat :=
  (List.range ((stop + step - 1) / step)).map (fun i => i * step)

/-- Errors a modelled Python computation can raise. -/
inductive PyErr where
  | valueError : PyErr
  | apiError : String → PyErr
deriving DecidableEq, Repr

/-- The two configuration fields of `Settings` that the chunker reads
(`app/core/config.py`: `CHUNK_SIZE`, `CHUNK_OVERLAP`). -/
structure ChunkSettings where
  CHUNK_SIZE : Nat
  CHUNK_OVERLAP : Nat
deriving DecidableEq, Repr

/-- `EmbeddingsManager._split_into_chunks`.

```
words = text.split()
chunk_size = min(self.settings.CHUNK_SIZE, 500)
overlap = min(self.settings.CHUNK_OVERLAP, 50)
for i in range(0, len(words), chunk_size - overlap):
    chunks.append(" ".join(words[i:i + chunk_size]))
```

Python `range` raises `ValueError` when its step is zero, and yields the
empty sequence when the step is negative (start `0`, stop `≥ 0`), so the
subtraction is taken in `Int` before the case split. -/
def splitIntoChunks (settings : ChunkSettings) (text : String) :
    Except PyErr (List String) :=
  let words := pySplit text
  let chunk_size : Nat := min settings.CHUNK_SIZE 500
  let overlap : Nat := min settings.CHUNK_OVERLAP 50
  let step : Int := (chunk_size : Int) - (overlap : Int)
  if step = 0 then
    Except.error PyErr.valueError
  else if step < 0 then
    Except.ok []
  else
    Except.ok ((pyRangeUp words.length step.toNat).map
      (fun i => " ".intercalate ((words.drop i).take chunk_size)))

/-- The effective chunk size `_split_into_chunks` uses:
`min(self.settings.CHUNK_SIZE, 500)`. -/
def clampedSize (s : ChunkSettings) : Nat := min s.CHUNK_SIZE 500

/-- The effective overlap `_split_into_chunks` uses:
`min(self.settings.CHUNK_OVERLAP, 50)`. -/
def clampedOverlap (s : ChunkSettings) : Nat := min s.CHUNK_OVERLAP 50

/-- The window advance of `_split_into_chunks`: `chunk_size - overlap`
(as a natural number; meaningful when the overlap is smaller). -/
def stride (s : ChunkSettings) : Nat := clampedSize s - clampedOverlap s

/-- Modelled from the spec, §8 Testable Properties: the asserted chunk
count `ceil((len(words) - O) / (C - O))` for `n` words, compared against
the count the code actually produces. -/
def specChunkCount (n C O : Nat) : Nat := (n - O + (C - O) - 1) / (C - O)

/-- UTF-8 byte length, as Python `len(text.encode('utf-8'))`. -/
def pyUtf8Len (s : String) : Nat :=
  (s.toList.map Char.utf8Size).sum

/-- Python `text[:k]` — the first `k` characters. -/
def pyTake (s : String) (k : Nat) : String :=
  String.mk (s.toList.take k)

/-- The argument record of `TextEmbeddingInput(text=…, task_type=…, title=…)`. -/
structure EmbInput where
  text : String
  task_type : String
  title : Option String
deriving DecidableEq, Repr

/-- The metadata dictionary attached to each uploaded chunk
(`load_document` builds `{"country": …, "law_type": …, "language": …, "text": …}`). -/
structure Metadata where
  country : String
  law_type : String
  language : String
  text : String
deriving DecidableEq, Repr

/-- One element of the `embeddings_data` list built in `load_document`:
`{"id": …, "embedding": …, "metadata": …}`. -/
structure EmbRecord where
  id : String
  embedding : List Int
  metadata : Metadata
deriving DecidableEq, Repr

/-- One neighbor object of a `find_neighbors` response. -/
structure Neighbor where
  metadata : Metadata
deriving DecidableEq, Repr

/-- Oracle for the `MatchingEngineIndexEndpoint` SDK object.
`upsert_embeddings` receives the three parallel lists the code extracts;
`find_neighbors` receives the query vector, `num_neighbors`, and the three
tag values the code formats into the exact-match filter string.
`Except.error` models the SDK call raising; for `find_neighbors`,
`Except.ok none` models a falsy response or one without a `neighbors`
attribute. -/
structure VectorClient where
  upsert_embeddings : List (List Int) → List String → List Metadata → Except PyErr Unit
  find_neighbors : List Int → Nat → String × String × String → Except PyErr (Option (List Neighbor))

/-- The two external-service fields of `EmbeddingsManager`; `none` models
a constructor failure that left the field `None` (degraded mode).
The embedding model's `get_embeddings` takes a list of inputs and returns
the list of the embeddings' `.values`. -/
structure Env where
  embedding_model : Option (List EmbInput → Except PyErr (List (List Int)))
  vector_search_client : Option VectorClient

/-- The `try:` block of `EmbeddingsManager._generate_embedding`: choose the
task type, truncate over-length text by character count, build the input,
call `get_embeddings`, and return `embeddings[0].values if embeddings else
None`. Calling `get_embeddings` on a `None` model raises
(`AttributeError`), modelled as an error result. -/
def generateEmbeddingTry (env : Env) (text : String) (title : Option String)
    (is_document : Bool) : Except PyErr (Option (List Int)) :=
  let task_type := if is_document then "RETRIEVAL_DOCUMENT" else "RETRIEVAL_QUERY"
  let text := if pyUtf8Len text > 8000 then pyTake text 4000 else text
  let embedding_input : EmbInput :=
    ⟨text, task_type, if is_document then title else none⟩
  match env.embedding_model with
  | none => Except.error (PyErr.apiError "AttributeError")
  | some get_embeddings =>
    match get_embeddings [embedding_input] with
    | Except.error e => Except.error e
    | Except.ok embeddings =>
      Except.ok (match embeddings with
        | [] => none
        | v :: _ => some v)

/-- `EmbeddingsManager._generate_embedding`: the `try:` body wrapped in
`except Exception: log; return None`. The result type is what the caller
observes: an `Except.error` would be a propagated exception. -/
def generateEmbedding (env : Env) (text : String) (title : Option String)
    (is_document : Bool) : Except PyErr (Option (List Int)) :=
  match generateEmbeddingTry env text title is_document with
  | Except.ok r => Except.ok r
  | Except.error _ => Except.ok none

/-- `EmbeddingsManager._upload_embeddings`: if the client is `None`, log
and return `False`; otherwise extract the three parallel lists and make a
single `upsert_embeddings` SDK call, returning `True` on success and
`False` when the call raises. The second component is the trace of SDK
calls made, each entry carrying the `embeddings_data` it was built from. -/
def uploadEmbeddings (client : Option VectorClient)
    (embeddings_data : List EmbRecord) : Bool × List (List EmbRecord) :=
  match client with
  | none => (false, [])
  | some c =>
    let embeddings := embeddings_data.map (fun d => d.embedding)
    let ids := embeddings_data.map (fun d => d.id)
    let metadata := embeddings_data.map (fun d => d.metadata)
    match c.upsert_embeddings embeddings ids metadata with
    | Except.ok _ => (true, [embeddings_data])
    | Except.error _ => (false, [embeddings_data])

/-- The document title `load_document` passes to `_generate_embedding`:
`f"{country}-{law_type}-{language}"`. -/
def docTitle (country law_type language : String) : String :=
  s!"{country}-{law_type}-{language}"

/-- The per-chunk body of `load_document`'s batch loop: generate the
embedding (inside a `try` that logs and skips on failure) and, when the
result is truthy (`if embedding:` — neither `None` nor the empty list),
build the record with id `f"{country}-{law_type}-{language}-{batch_idx+chunk_idx}"`.
`n` is `batch_idx + chunk_idx`, the chunk's global index. -/
def recordOf (env : Env) (country law_type language : String) (n : Nat)
    (chunk : String) : Option EmbRecord :=
  match generateEmbedding env chunk (some (docTitle country law_type language)) true with
  | Except.ok (some embedding) =>
    if embedding.isEmpty then none
    else some
      { id := s!"{country}-{law_type}-{language}-{n}"
        embedding := embedding
        metadata := ⟨country, law_type, language, chunk⟩ }
  | _ => none

/-- One batch of `load_document`: `for chunk_idx, chunk in enumerate(batch)`,
collecting the records of the chunks whose embedding succeeded, in order. -/
def processBatch (env : Env) (country law_type language : String)
    (batch_idx : Nat) (batch : List String) : List EmbRecord :=
  batch.enum.filterMap
    (fun p => recordOf env country law_type language (batch_idx + p.1) p.2)

/-- `EmbeddingsManager.load_document`: fail fast (`False`) when the
embedding model is uninitialized; split into chunks (a raised `ValueError`
is caught by the surrounding `try` and yields `False`); walk the batches
`chunks[batch_idx:batch_idx+5]` for `batch_idx in range(0, len(chunks), 5)`;
upload each batch's non-empty `embeddings_data`, ignoring the upload's
boolean result (it is only logged); finally return `True`. The second
component is the trace of `upsert_embeddings` SDK calls. -/
def loadDocument (env : Env) (settings : ChunkSettings)
    (content country law_type language : String) : Bool × List (List EmbRecord) :=
  match env.embedding_model with
  | none => (false, [])
  | some _ =>
    match splitIntoChunks settings content with
    | Except.error _ => (false, [])
    | Except.ok chunks =>
      let trace := (pyRangeUp chunks.length 5).foldl
        (fun acc batch_idx =>
          let batch := (chunks.drop batch_idx).take 5
          let embeddings_data := processBatch env country law_type language batch_idx batch
          if embeddings_data.isEmpty then acc
          else acc ++ (uploadEmbeddings env.vector_search_client embeddings_data).2)
        []
      (true, trace)

/-- `EmbeddingsManager.get_relevant_context`: `[]` when either service
field is falsy (`if not all([...])`); embed the query with QUERY intent
and no title; `[]` when the embedding is falsy (`if not query_embedding`);
query the index with the tag filter; return the `text` metadata field of
each neighbor in order; any raise inside the `try` yields `[]`. -/
def getRelevantContext (env : Env) (query country law_type language : String)
    (top_k : Nat) : List String :=
  match env.vector_search_client, env.embedding_model with
  | some client, some _ =>
    (match generateEmbedding env query none false with
     | Except.error _ => []
     | Except.ok none => []
     | Except.ok (some query_embedding) =>
       if query_embedding.isEmpty then []
       else
         match client.find_neighbors query_embedding top_k (country, law_type, language) with
         | Except.error _ => []
         | Except.ok none => []
         | Except.ok (some neighbors) => neighbors.map (fun n => n.metadata.text))
  | _, _ => []

/-- Helper for `pyTitle`: the boolean records whether the previous
character was alphabetic. -/
def pyTitleAux : List Char → Bool → List Char
  | [], _ => []
  | c :: cs, prevAlpha =>
    (if c.isAlpha then (if prevAlpha then c.toLower else c.toUpper) else c)
      :: pyTitleAux cs c.isAlpha

/-- Python `str.title()` (modelled for cased/alphabetic characters):
uppercase each letter that follows a non-letter, lowercase the rest. -/
def pyTitle (s : String) : String :=
  String.mk (pyTitleAux s.toList false)

/-- The fixed no-context reply of `GeminiService.ask_legal_question`
(a Russian sentence, returned verbatim from the source). -/
def noInfoMessage : String :=
  "Извините, я не нашел релевантной информации в законодательстве по вашему вопросу."

/-- The fixed apology reply of `ask_legal_question`'s `except` clause. -/
def errorMessage : String :=
  "Извините, произошла ошибка при обработке вашего вопроса. Попробуйте позже."

/-- The f-string prompt of `ask_legal_question`, whitespace of the
triple-quoted literal included. -/
def buildPrompt (country law_type language context question : String) : String :=
  "You are a Legal Assistant specializing in " ++ pyTitle country ++ " "
    ++ law_type ++ " law.\n            Answer the following question in "
    ++ language ++ ".\n            Base your answer only on these relevant sections of law:\n            \n            "
    ++ context ++ "\n            \n            Question: " ++ question

/-- `GeminiService`: the embedding manager's environment plus the
`GenerativeModel.generate_content` oracle (returning `response.text`). -/
structure GenEnv where
  em : Env
  generate_content : String → Except PyErr String

/-- `GeminiService.ask_legal_question`: retrieve context (top 3); when no
chunks were found return the fixed no-info message without calling the
generation model; otherwise join the chunks with blank lines, build the
prompt and call `generate_content`, returning its text, or the fixed
apology when anything in the `try` raises. The boolean reports whether
the generation API was invoked. -/
def askLegalQuestion (genv : GenEnv) (question country law_type language : String) :
    String × Bool :=
  let relevant_chunks := getRelevantContext genv.em question country law_type language 3
  if relevant_chunks.isEmpty then (noInfoMessage, false)
  else
    let context := "\n\n".intercalate relevant_chunks
    let prompt := buildPrompt country law_type language context question
    match genv.generate_content prompt with
    | Except.ok t => (t, true)
    | Except.error _ => (errorMessage, true)

/-! ### Concrete environments used by the witness theorems -/

/-- A test embedding model: raises on any batch containing the text
`"bad"`, otherwise embeds each input as the one-element vector of its
text length. -/
def testModel : List EmbInput → Except PyErr (List (List Int)) :=
  fun inputs =>
    if inputs.any (fun inp => inp.text = "bad") then
      Except.error (PyErr.apiError "boom")
    else
      Except.ok (inputs.map (fun inp => [(inp.text.length : Int)]))

/-- A test vector-search client whose calls always succeed; queries
return two fixed neighbors. -/
def testClient : VectorClient where
  upsert_embeddings := fun _ _ _ => Except.ok ()
  find_neighbors := fun _ _ _ =>
    Except.ok (some [⟨⟨"georgia", "tax", "ru", "chunk one"⟩⟩,
                     ⟨⟨"georgia", "tax", "ru", "chunk two"⟩⟩])

/-- Both services initialized. -/
def envFull : Env := ⟨some testModel, some testClient⟩

/-- Vector-search client failed to initialize (`None`). -/
def envNoClient : Env := ⟨some testModel, none⟩

/-- Embedding model failed to initialize (`None`). -/
def envNoModel : Env := ⟨none, some testClient⟩

/-- A sample embedding record, used to probe `_upload_embeddings` with a
large input list. -/
def sampleRecord : EmbRecord :=
  ⟨"georgia-tax-ru-0", [1], ⟨"georgia", "tax", "ru", "t"⟩⟩

/-- A generation environment whose retrieval layer is degraded (vector
client `None`), so every retrieval yields no context; the generation
oracle would answer `"generated"` if it were ever called. -/
def genEnvNoCtx : GenEnv :=
  ⟨envNoClient, fun _ => Except.ok "generated"⟩

/-- The per-batch contribution of the trace of `load_document`. -/
def batchCalls (env : Env) (country law_type language : String)
    (chunks : List String) (batch_idx : Nat) : List (List EmbRecord) :=
  let embeddings_data :=
    processBatch env country law_type language batch_idx ((chunks.drop batch_idx).take 5)
  if embeddings_data.isEmpty then []
  else (uploadEmbeddings env.vector_search_client embeddings_data).2

/-! ### Concrete evaluations (sanity checks of the embedding) -/

example : pySplit "a b  c" = ["a", "b", "c"] := rfl
example : pySplit "" = [] := rfl
example : pyRangeUp 10 3 = [0, 3, 6, 9] := rfl
example : pyRangeUp 0 3 = [] := rfl

example :
    splitIntoChunks ⟨5, 2⟩ "a b c d e f g h i j" =
      Except.ok ["a b c d e", "d e f g h", "g h i j", "j"] := rfl

example : splitIntoChunks ⟨5, 2⟩ "" = Except.ok [] := rfl

example : splitIntoChunks ⟨3, 3⟩ "a b" = Except.error PyErr.valueError := rfl

example : splitIntoChunks ⟨3, 5⟩ "a b" = Except.ok [] := rfl

example :
    splitIntoChunks ⟨1, 0⟩ "x bad y" = Except.ok ["x", "bad", "y"] := rfl

example :
    loadDocument envFull ⟨1, 0⟩ "x bad y" "georgia" "tax" "ru" =
      (true,
       [[⟨"georgia-tax-ru-0", [1], ⟨"georgia", "tax", "ru", "x"⟩⟩,
         ⟨"georgia-tax-ru-2", [1], ⟨"georgia", "tax", "ru", "y"⟩⟩]]) := rfl

example :
    loadDocument envNoClient ⟨1, 0⟩ "x y" "georgia" "tax" "ru" = (true, []) := rfl

example :
    loadDocument envNoModel ⟨1, 0⟩ "x y" "georgia" "tax" "ru" = (false, []) := rfl

example :
    getRelevantContext envFull "q" "georgia" "tax" "ru" 3 =
      ["chunk one", "chunk two"] := rfl

example : getRelevantContext envNoClient "q" "georgia" "tax" "ru" 3 = [] := rfl

example : getRelevantContext envNoModel "q" "georgia" "tax" "ru" 3 = [] := rfl

/-! ### Chunker lemmas -/

theorem pyRangeUp_length (n t : Nat) : (pyRangeUp n t).length = (n + t - 1) / t := by
  simp [pyRangeUp]

theorem pyRangeUp_getElem? {n t i : Nat} (h : i < (n + t - 1) / t) :
    (pyRangeUp n t)[i]? = some (i * t) := by
  simp [pyRangeUp, List.getElem?_range h]

theorem splitIntoChunks_eq (s : ChunkSettings) (text : String)
    (h : clampedOverlap s < clampedSize s) :
    splitIntoChunks s text =
      Except.ok ((pyRangeUp (pySplit text).length (stride s)).map
        (fun i => " ".intercalate (((pySplit text).drop i).take (clampedSize s)))) := by
  unfold clampedOverlap clampedSize at h
  have hne : ¬ (((min s.CHUNK_SIZE 500 : Nat) : Int) - ((min s.CHUNK_OVERLAP 50 : Nat) : Int) = 0) := by
    omega
  have hnlt : ¬ (((min s.CHUNK_SIZE 500 : Nat) : Int) - ((min s.CHUNK_OVERLAP 50 : Nat) : Int) < 0) := by
    omega
  have htn : (((min s.CHUNK_SIZE 500 : Nat) : Int) - ((min s.CHUNK_OVERLAP 50 : Nat) : Int)).toNat
      = stride s := by
    unfold stride clampedSize clampedOverlap
    omega
  simp only [splitIntoChunks, if_neg hne, if_neg hnlt, htn, clampedSize]

/-- C3 (counterexample): on a 10-word text with effective
`chunk_size = 5`, `overlap = 2`, the code produces 4 chunks
(`range(0, 10, 3)` has starts 0, 3, 6, 9), while the spec's formula
`ceil((len(words) - O) / (C - O)) = ceil(8 / 3)` gives 3. -/
theorem chunker_count_formula_counterexample :
    (splitIntoChunks ⟨5, 2⟩ "a b c d e f g h i j").map List.length = Except.ok 4 ∧
    specChunkCount 10 5 2 = 3 :=
  ⟨rfl, rfl⟩

/-- C3 (amended): with effective overlap `O` below effective chunk size
`C`, splitting succeeds, every word of the text lies in at least one
chunk's word-window, and the chunk count is `ceil(len(words) / (C - O))`
(zero for empty text), not `ceil((len(words) - O) / (C - O))`. -/
theorem chunker_coverage_count (s : ChunkSettings) (text : String)
    (h : clampedOverlap s < clampedSize s) :
    ∃ chunks, splitIntoChunks s text = Except.ok chunks ∧
      chunks.length = ((pySplit text).length + stride s - 1) / stride s ∧
      ∀ j, j < (pySplit text).length →
        ∃ i, i < chunks.length ∧
          chunks[i]? = some (" ".intercalate
            (((pySplit text).drop (i * stride s)).take (clampedSize s))) ∧
          i * stride s ≤ j ∧ j < i * stride s + clampedSize s := by
  have ht : 0 < stride s := by
    unfold stride
    omega
  have hts : stride s ≤ clampedSize s := by
    unfold stride
    omega
  refine ⟨_, splitIntoChunks_eq s text h, ?_, ?_⟩
  · simp [pyRangeUp_length]
  · intro j hj
    set n := (pySplit text).length with hn
    set t := stride s with htdef
    have hdm : j / t * t + j % t = j := Nat.div_add_mod' j t
    have hml : j % t < t := Nat.mod_lt _ ht
    have hi : j / t < (n + t - 1) / t := by
      have h1 : (j + t) / t = j / t + 1 := Nat.add_div_right j ht
      have h2 : (j + t) / t ≤ (n + t - 1) / t := Nat.div_le_div_right (by omega)
      omega
    refine ⟨j / t, ?_, ?_, ?_, ?_⟩
    · simpa [pyRangeUp_length] using hi
    · simp [List.getElem?_map, pyRangeUp_getElem? hi]
    · omega
    · omega

/-- C3 (witness): the amended coverage/count theorem instantiated at
`chunk_size = 5`, `overlap = 2` and a 10-word text. -/
theorem chunker_coverage_count_witness :
    clampedOverlap ⟨5, 2⟩ < clampedSize ⟨5, 2⟩ ∧
    (∃ chunks, splitIntoChunks ⟨5, 2⟩ "a b c d e f g h i j" = Except.ok chunks ∧
      chunks.length = ((pySplit "a b c d e f g h i j").length + stride ⟨5, 2⟩ - 1) / stride ⟨5, 2⟩ ∧
      ∀ j, j < (pySplit "a b c d e f g h i j").length →
        ∃ i, i < chunks.length ∧
          chunks[i]? = some (" ".intercalate
            (((pySplit "a b c d e f g h i j").drop (i * stride ⟨5, 2⟩)).take (clampedSize ⟨5, 2⟩))) ∧
          i * stride ⟨5, 2⟩ ≤ j ∧ j < i * stride ⟨5, 2⟩ + clampedSize ⟨5, 2⟩) :=
  ⟨by decide, chunker_coverage_count ⟨5, 2⟩ "a b c d e f g h i j" (by decide)⟩

/-- C4 (counterexample): `ConfigurationError` does not exist in the code.
With `CHUNK_SIZE = 3`, `CHUNK_OVERLAP = 5` (effective overlap greater
than effective chunk size), `_split_into_chunks` does not fail at all:
`range(0, 2, -2)` is empty and the empty chunk list is returned. -/
theorem chunker_overlap_counterexample :
    splitIntoChunks ⟨3, 5⟩ "a b" = Except.ok [] ∧
    clampedSize ⟨3, 5⟩ < clampedOverlap ⟨3, 5⟩ :=
  ⟨rfl, by decide⟩

/-- C4 (amended): when the effective overlap equals the effective chunk
size the split raises Python's `ValueError` (zero `range` step) — an
uncaught generic exception, not a `ConfigurationError`; when the
effective overlap is greater, the split silently returns the empty
chunk list. -/
theorem chunker_overlap_ge (s : ChunkSettings) (text : String) :
    (clampedOverlap s = clampedSize s →
      splitIntoChunks s text = Except.error PyErr.valueError) ∧
    (clampedSize s < clampedOverlap s →
      splitIntoChunks s text = Except.ok []) := by
  constructor
  · intro h
    unfold clampedOverlap clampedSize at h
    have h0 : (((min s.CHUNK_SIZE 500 : Nat) : Int) - ((min s.CHUNK_OVERLAP 50 : Nat) : Int)) = 0 := by
      omega
    simp only [splitIntoChunks, if_pos h0]
  · intro h
    unfold clampedOverlap clampedSize at h
    have h0 : ¬ (((min s.CHUNK_SIZE 500 : Nat) : Int) - ((min s.CHUNK_OVERLAP 50 : Nat) : Int) = 0) := by
      omega
    have h1 : (((min s.CHUNK_SIZE 500 : Nat) : Int) - ((min s.CHUNK_OVERLAP 50 : Nat) : Int)) < 0 := by
      omega
    simp only [splitIntoChunks, if_neg h0, if_pos h1]

/-- C4 (witness): both branches of the amended behavior at concrete
settings: overlap 3 = size 3 raises `ValueError`; overlap 5 > size 3
yields the empty list. -/
theorem chunker_overlap_ge_witness :
    splitIntoChunks ⟨3, 3⟩ "a b" = Except.error PyErr.valueError ∧
    splitIntoChunks ⟨3, 5⟩ "a b c" = Except.ok [] :=
  ⟨(chunker_overlap_ge ⟨3, 3⟩ "a b").1 (by decide),
   (chunker_overlap_ge ⟨3, 5⟩ "a b c").2 (by decide)⟩

/-- C5 (counterexample): a 4-word text with effective `chunk_size = 5`
and `overlap = 2` has `len(words) ≤ chunk_size`, yet the split produces
two chunks (`range(0, 4, 3)` has starts 0 and 3), not one chunk equal to
the whole text. -/
theorem chunker_boundary_counterexample :
    (pySplit "a b c d").length ≤ clampedSize ⟨5, 2⟩ ∧
    splitIntoChunks ⟨5, 2⟩ "a b c d" = Except.ok ["a b c d", "d"] :=
  ⟨by decide, rfl⟩

/-- C5 (amended): the empty string splits to the empty sequence, and a
text whose word count is at most `chunk_size - overlap` (effective
values; not merely at most `chunk_size`) splits to exactly one chunk:
its words rejoined with single spaces. -/
theorem chunker_boundary (s : ChunkSettings) (text : String)
    (h : clampedOverlap s < clampedSize s) :
    splitIntoChunks s "" = Except.ok [] ∧
    (pySplit text ≠ [] → (pySplit text).length ≤ stride s →
      splitIntoChunks s text = Except.ok [" ".intercalate (pySplit text)]) := by
  have ht : 0 < stride s := by
    unfold stride
    omega
  have hts : stride s ≤ clampedSize s := by
    unfold stride
    omega
  constructor
  · rw [splitIntoChunks_eq s "" h]
    have : pySplit "" = [] := rfl
    rw [this]
    simp only [List.length_nil]
    have hz : (stride s - 1) / stride s = 0 :=
      Nat.div_eq_of_lt (by omega)
    simp [pyRangeUp, hz]
  · intro hne hle
    rw [splitIntoChunks_eq s text h]
    have hpos : 0 < (pySplit text).length := List.length_pos.mpr hne
    have h1 : ((pySplit text).length + stride s - 1) / stride s = 1 :=
      Nat.div_eq_of_lt_le (by omega) (by omega)
    simp only [pyRangeUp, h1]
    have hr1 : List.range 1 = [0] := rfl
    simp [hr1, List.take_of_length_le (le_trans hle hts)]

/-- C5 (witness): the amended boundary theorem instantiated at
`chunk_size = 5`, `overlap = 2` and the 3-word text `"a b c"`
(3 ≤ 5 − 2). -/
theorem chunker_boundary_witness :
    splitIntoChunks ⟨5, 2⟩ "" = Except.ok [] ∧
    splitIntoChunks ⟨5, 2⟩ "a b c" = Except.ok ["a b c"] :=
  ⟨(chunker_boundary ⟨5, 2⟩ "a b c" (by decide)).1,
   (chunker_boundary ⟨5, 2⟩ "a b c" (by decide)).2 (by decide) (by decide)⟩

/-! ### `_generate_embedding` totality -/

/-- C10: `_generate_embedding` never propagates an exception: for every
environment and input the caller observes a normal return (`Except.ok`),
carrying either a vector or `None`; in particular, whenever the `try:`
body raises, the result is the normal return `None`. -/
theorem generateEmbedding_total (env : Env) (text : String)
    (title : Option String) (is_document : Bool) :
    (∃ r : Option (List Int),
      generateEmbedding env text title is_document = Except.ok r) ∧
    (∀ e, generateEmbeddingTry env text title is_document = Except.error e →
      generateEmbedding env text title is_document = Except.ok none) := by
  unfold generateEmbedding
  cases h : generateEmbeddingTry env text title is_document with
  | ok r =>
    refine ⟨⟨r, rfl⟩, ?_⟩
    intro e he
    simp at he
  | error e => exact ⟨⟨none, rfl⟩, fun _ _ => rfl⟩

/-- C10 (witness): on the input `"bad"` the test model's upstream call
raises, and `_generate_embedding` returns `None` normally. -/
theorem generateEmbedding_total_witness :
    generateEmbeddingTry envFull "bad" none false =
      Except.error (PyErr.apiError "boom") ∧
    generateEmbedding envFull "bad" none false = Except.ok none :=
  ⟨rfl, (generateEmbedding_total envFull "bad" none false).2
    (PyErr.apiError "boom") rfl⟩

/-! ### `load_document` trace lemmas -/

theorem foldl_accum {α β : Type} (F : List β → α → List β) (g : α → List β)
    (hF : ∀ acc b, F acc b = acc ++ g b) :
    ∀ (l : List α) (init : List β), l.foldl F init = init ++ l.flatMap g := by
  intro l
  induction l with
  | nil => intro init; simp
  | cons b l ih =>
    intro init
    simp only [List.foldl_cons, List.flatMap_cons, hF, ih, List.append_assoc]

theorem uploadEmbeddings_trace (cl : VectorClient) (d : List EmbRecord) :
    (uploadEmbeddings (some cl) d).2 = [d] := by
  cases h : cl.upsert_embeddings (d.map (fun r => r.embedding))
      (d.map (fun r => r.id)) (d.map (fun r => r.metadata)) <;>
    simp [uploadEmbeddings, h]

theorem loadDocument_eq (env : Env) (s : ChunkSettings)
    (content country law_type language : String)
    (f : List EmbInput → Except PyErr (List (List Int)))
    (chunks : List String)
    (hm : env.embedding_model = some f)
    (hs : splitIntoChunks s content = Except.ok chunks) :
    loadDocument env s content country law_type language =
      (true, (pyRangeUp chunks.length 5).flatMap
        (batchCalls env country law_type language chunks)) := by
  unfold loadDocument
  rw [hm, hs]
  simp only
  rw [foldl_accum _ (batchCalls env country law_type language chunks)]
  · rfl
  · intro acc b
    unfold batchCalls
    by_cases hempty :
        (processBatch env country law_type language b ((chunks.drop b).take 5)).isEmpty
    · simp [hempty]
    · simp [hempty]

theorem div_mul_mem_pyRangeUp {n t j : Nat} (ht : 0 < t) (hj : j < n) :
    j / t * t ∈ pyRangeUp n t := by
  unfold pyRangeUp
  refine List.mem_map.mpr ⟨j / t, List.mem_range.mpr ?_, rfl⟩
  have h1 : (j + t) / t = j / t + 1 := Nat.add_div_right j ht
  have h2 : (j + t) / t ≤ (n + t - 1) / t := Nat.div_le_div_right (by omega)
  omega

theorem mem_processBatch {env : Env} {cc ll gg : String} {b : Nat}
    {batch : List String} {r : EmbRecord} :
    r ∈ processBatch env cc ll gg b batch ↔
      ∃ j c, batch[j]? = some c ∧ recordOf env cc ll gg (b + j) c = some r := by
  unfold processBatch
  rw [List.mem_filterMap]
  constructor
  · rintro ⟨⟨j, c⟩, hmem, hr⟩
    exact ⟨j, c, List.mem_enum_iff_getElem?.mp hmem, hr⟩
  · rintro ⟨j, c, hj, hr⟩
    exact ⟨(j, c), List.mem_enum_iff_getElem?.mpr hj, hr⟩

theorem record_mem_trace {env : Env} {s : ChunkSettings}
    {content cc ll gg : String}
    {f : List EmbInput → Except PyErr (List (List Int))} {cl : VectorClient}
    {chunks : List String} {n : Nat} {c : String} {r : EmbRecord}
    (hm : env.embedding_model = some f)
    (hc : env.vector_search_client = some cl)
    (hs : splitIntoChunks s content = Except.ok chunks)
    (hn : chunks[n]? = some c)
    (hr : recordOf env cc ll gg n c = some r) :
    r ∈ ((loadDocument env s content cc ll gg).2).flatten := by
  rw [loadDocument_eq env s content cc ll gg f chunks hm hs]
  have hlen : n < chunks.length := (List.getElem?_eq_some_iff.mp hn).1
  have hbmem : n / 5 * 5 ∈ pyRangeUp chunks.length 5 :=
    div_mul_mem_pyRangeUp (by omega) hlen
  have hnb : n = n / 5 * 5 + n % 5 := by omega
  have hbatch : ((chunks.drop (n / 5 * 5)).take 5)[n % 5]? = some c := by
    rw [List.getElem?_take_of_lt (Nat.mod_lt _ (by omega)), List.getElem?_drop, ← hnb]
    exact hn
  have hrd : r ∈ processBatch env cc ll gg (n / 5 * 5) ((chunks.drop (n / 5 * 5)).take 5) :=
    mem_processBatch.mpr ⟨n % 5, c, hbatch, by rw [← hnb]; exact hr⟩
  have hne : (processBatch env cc ll gg (n / 5 * 5) ((chunks.drop (n / 5 * 5)).take 5)).isEmpty = false := by
    rw [List.isEmpty_eq_false]
    intro habs
    rw [habs] at hrd
    cases hrd
  have hcalls : processBatch env cc ll gg (n / 5 * 5) ((chunks.drop (n / 5 * 5)).take 5)
      ∈ batchCalls env cc ll gg chunks (n / 5 * 5) := by
    unfold batchCalls
    rw [hc]
    simp only [hne, Bool.false_eq_true, if_false, uploadEmbeddings_trace]
    exact List.mem_singleton.mpr rfl
  exact List.mem_flatten.mpr ⟨_, List.mem_flatMap.mpr ⟨_, hbmem, hcalls⟩, hrd⟩

theorem trace_record_characterization {env : Env} {s : ChunkSettings}
    {content cc ll gg : String}
    {f : List EmbInput → Except PyErr (List (List Int))}
    {chunks : List String} {r : EmbRecord}
    (hm : env.embedding_model = some f)
    (hs : splitIntoChunks s content = Except.ok chunks)
    (hr : r ∈ ((loadDocument env s content cc ll gg).2).flatten) :
    ∃ n c, chunks[n]? = some c ∧ recordOf env cc ll gg n c = some r := by
  rw [loadDocument_eq env s content cc ll gg f chunks hm hs] at hr
  obtain ⟨call, hcall, hrc⟩ := List.mem_flatten.mp hr
  obtain ⟨b, _, hcb⟩ := List.mem_flatMap.mp hcall
  unfold batchCalls at hcb
  by_cases hempty :
      (processBatch env cc ll gg b ((chunks.drop b).take 5)).isEmpty
  · rw [if_pos hempty] at hcb
    cases hcb
  · rw [if_neg hempty] at hcb
    cases hvc : env.vector_search_client with
    | none =>
      rw [hvc] at hcb
      simp [uploadEmbeddings] at hcb
    | some cl =>
      rw [hvc, uploadEmbeddings_trace] at hcb
      have hceq : call = processBatch env cc ll gg b ((chunks.drop b).take 5) :=
        List.mem_singleton.mp hcb
      rw [hceq] at hrc
      obtain ⟨j, c, hj, hrec⟩ := mem_processBatch.mp hrc
      have hj5 : j < 5 := by
        have := (List.getElem?_eq_some_iff.mp hj).1
        rw [List.length_take] at this
        omega
      refine ⟨b + j, c, ?_, hrec⟩
      rw [← List.getElem?_drop]
      rw [List.getElem?_take_of_lt hj5] at hj
      exact hj

theorem recordOf_some_shape {env : Env} {cc ll gg : String} {n : Nat}
    {c : String} {r : EmbRecord}
    (h : recordOf env cc ll gg n c = some r) :
    r.id = s!"{cc}-{ll}-{gg}-{n}" ∧ r.metadata = ⟨cc, ll, gg, c⟩ ∧
      generateEmbedding env c (some (docTitle cc ll gg)) true =
        Except.ok (some r.embedding) ∧ r.embedding ≠ [] := by
  unfold recordOf at h
  cases hg : generateEmbedding env c (some (docTitle cc ll gg)) true with
  | error e =>
    rw [hg] at h
    cases h
  | ok o =>
    rw [hg] at h
    cases o with
    | none => cases h
    | some v =>
      dsimp only at h
      by_cases hv : v.isEmpty
      · rw [if_pos hv] at h
        cases h
      · rw [if_neg hv] at h
        cases h
        refine ⟨rfl, rfl, rfl, ?_⟩
        simpa using hv

/-- C1: with both services initialized and chunking successful,
`load_document` returns `true`; every chunk whose embedding call returns
a (truthy) vector has its record submitted in some batch upsert — in
particular a failing chunk leaves the other chunks of its batch and the
later batches unaffected; and every submitted record comes from a chunk
whose embedding call succeeded, so a chunk whose embedding failed is
skipped and contributes nothing. Per-chunk skips never force `false`. -/
theorem loadDocument_partial_ingestion (env : Env) (s : ChunkSettings)
    (content cc ll gg : String)
    (f : List EmbInput → Except PyErr (List (List Int))) (cl : VectorClient)
    (chunks : List String)
    (hm : env.embedding_model = some f)
    (hc : env.vector_search_client = some cl)
    (hs : splitIntoChunks s content = Except.ok chunks) :
    (loadDocument env s content cc ll gg).1 = true ∧
    (∀ (n : Nat) (c : String) (v : List Int), chunks[n]? = some c →
      generateEmbedding env c (some (docTitle cc ll gg)) true = Except.ok (some v) →
      v ≠ [] →
      ({ id := s!"{cc}-{ll}-{gg}-{n}", embedding := v,
         metadata := ⟨cc, ll, gg, c⟩ } : EmbRecord)
        ∈ ((loadDocument env s content cc ll gg).2).flatten) ∧
    (∀ r, r ∈ ((loadDocument env s content cc ll gg).2).flatten →
      ∃ (n : Nat) (c : String), chunks[n]? = some c ∧
        generateEmbedding env c (some (docTitle cc ll gg)) true =
          Except.ok (some r.embedding) ∧ r.embedding ≠ [] ∧
        r.metadata = ⟨cc, ll, gg, c⟩) := by
  refine ⟨?_, ?_, ?_⟩
  · rw [loadDocument_eq env s content cc ll gg f chunks hm hs]
  · intro n c v hn hv hvne
    refine record_mem_trace hm hc hs hn ?_
    unfold recordOf
    rw [hv]
    dsimp only
    rw [if_neg (by simpa using hvne)]
  · intro r hr
    obtain ⟨n, c, hn, hrec⟩ := trace_record_characterization hm hs hr
    obtain ⟨_, hmd, hemb, hne⟩ := recordOf_some_shape hrec
    exact ⟨n, c, hn, hemb, hne, hmd⟩

/-- C1 (witness): ingesting `"x bad y"` with `chunk_size = 1`,
`overlap = 0` — the middle chunk's embedding call raises — still returns
`true` and still submits the first chunk's record. -/
theorem loadDocument_partial_ingestion_witness :
    generateEmbedding envFull "bad" (some (docTitle "georgia" "tax" "ru")) true =
      Except.ok none ∧
    (loadDocument envFull ⟨1, 0⟩ "x bad y" "georgia" "tax" "ru").1 = true ∧
    ({ id := "georgia-tax-ru-0", embedding := [1],
       metadata := ⟨"georgia", "tax", "ru", "x"⟩ } : EmbRecord)
      ∈ ((loadDocument envFull ⟨1, 0⟩ "x bad y" "georgia" "tax" "ru").2).flatten :=
  ⟨rfl,
   (loadDocument_partial_ingestion envFull ⟨1, 0⟩ "x bad y" "georgia" "tax" "ru"
      testModel testClient ["x", "bad", "y"] rfl rfl rfl).1,
   (loadDocument_partial_ingestion envFull ⟨1, 0⟩ "x bad y" "georgia" "tax" "ru"
      testModel testClient ["x", "bad", "y"] rfl rfl rfl).2.1 0 "x" [1] rfl rfl
      (by decide)⟩

/-- C8: the record built for the chunk at global position `n` (across all
batches) carries id `"{country}-{law_type}-{language}-{n}"` — the
sequence index is the global chunk position (`batch_idx + chunk_idx`
where `batch_idx` is the batch's start offset, not a batch-local index) —
and every submitted record's id and metadata arise this way from its
chunk's global position. -/
theorem loadDocument_record_id_sequence_index (env : Env) (s : ChunkSettings)
    (content cc ll gg : String)
    (f : List EmbInput → Except PyErr (List (List Int))) (cl : VectorClient)
    (chunks : List String) (n : Nat) (c : String) (v : List Int)
    (hm : env.embedding_model = some f)
    (hc : env.vector_search_client = some cl)
    (hs : splitIntoChunks s content = Except.ok chunks)
    (hn : chunks[n]? = some c)
    (hv : generateEmbedding env c (some (docTitle cc ll gg)) true = Except.ok (some v))
    (hvne : v ≠ []) :
    ({ id := s!"{cc}-{ll}-{gg}-{n}", embedding := v,
       metadata := ⟨cc, ll, gg, c⟩ } : EmbRecord)
      ∈ ((loadDocument env s content cc ll gg).2).flatten ∧
    (∀ r, r ∈ ((loadDocument env s content cc ll gg).2).flatten →
      ∃ (m : Nat) (d : String), chunks[m]? = some d ∧ r.id = s!"{cc}-{ll}-{gg}-{m}" ∧
        r.metadata = ⟨cc, ll, gg, d⟩) := by
  constructor
  · refine record_mem_trace hm hc hs hn ?_
    unfold recordOf
    rw [hv]
    dsimp only
    rw [if_neg (by simpa using hvne)]
  · intro r hr
    obtain ⟨m, d, hmd, hrec⟩ := trace_record_characterization hm hs hr
    obtain ⟨hid, hmeta, _, _⟩ := recordOf_some_shape hrec
    exact ⟨m, d, hmd, hid, hmeta⟩

/-- C8 (witness): in the `"x bad y"` ingestion the third chunk `"y"`
(global position 2, batch-local position 2) is stored under id
`"georgia-tax-ru-2"`. -/
theorem loadDocument_record_id_sequence_index_witness :
    ({ id := "georgia-tax-ru-2", embedding := [1],
       metadata := ⟨"georgia", "tax", "ru", "y"⟩ } : EmbRecord)
      ∈ ((loadDocument envFull ⟨1, 0⟩ "x bad y" "georgia" "tax" "ru").2).flatten :=
  (loadDocument_record_id_sequence_index envFull ⟨1, 0⟩ "x bad y" "georgia"
    "tax" "ru" testModel testClient ["x", "bad", "y"] 2 "y" [1]
    rfl rfl rfl rfl rfl (by decide)).1

/-- C9: `load_document`'s boolean ignores upload outcomes — whenever the
embedding model is initialized and chunking succeeds it returns `true`
for every vector-client state (in particular when every upsert fails);
with an uninitialized client no upsert call is ever made, so `true` is no
evidence that anything was stored. -/
theorem loadDocument_true_ignores_uploads (env : Env) (s : ChunkSettings)
    (content cc ll gg : String)
    (f : List EmbInput → Except PyErr (List (List Int)))
    (chunks : List String)
    (hm : env.embedding_model = some f)
    (hs : splitIntoChunks s content = Except.ok chunks) :
    (loadDocument env s content cc ll gg).1 = true ∧
    (env.vector_search_client = none →
      (loadDocument env s content cc ll gg).2 = []) := by
  constructor
  · rw [loadDocument_eq env s content cc ll gg f chunks hm hs]
  · intro hvc
    rw [loadDocument_eq env s content cc ll gg f chunks hm hs]
    refine List.flatMap_eq_nil_iff.mpr ?_
    intro b _
    unfold batchCalls
    rw [hvc]
    by_cases hempty :
        (processBatch env cc ll gg b ((chunks.drop b).take 5)).isEmpty
    · rw [if_pos hempty]
    · rw [if_neg hempty]
      rfl

/-- C9 (witness): with the vector client uninitialized, ingesting
`"x y"` returns `true` while making no upsert call at all. -/
theorem loadDocument_true_ignores_uploads_witness :
    (loadDocument envNoClient ⟨1, 0⟩ "x y" "georgia" "tax" "ru").1 = true ∧
    (loadDocument envNoClient ⟨1, 0⟩ "x y" "georgia" "tax" "ru").2 = [] :=
  ⟨(loadDocument_true_ignores_uploads envNoClient ⟨1, 0⟩ "x y" "georgia" "tax"
      "ru" testModel ["x", "y"] rfl rfl).1,
   (loadDocument_true_ignores_uploads envNoClient ⟨1, 0⟩ "x y" "georgia" "tax"
      "ru" testModel ["x", "y"] rfl rfl).2 rfl⟩

/-! ### `_upload_embeddings`, `get_relevant_context`, `ask_legal_question` -/

/-- C7 (counterexample): `_upload_embeddings` does no internal batching.
Passing 101 records produces exactly one upstream `upsert_embeddings`
call carrying all 101 records — a batch size of 100 would require two
calls (`ceil(101/100) = 2`). -/
theorem uploadEmbeddings_batching_counterexample :
    (List.replicate 101 sampleRecord).length = 101 ∧
    (uploadEmbeddings (some testClient) (List.replicate 101 sampleRecord)).2 =
      [List.replicate 101 sampleRecord] ∧
    ((uploadEmbeddings (some testClient) (List.replicate 101 sampleRecord)).2).length = 1 ∧
    (101 + 100 - 1) / 100 = 2 :=
  ⟨rfl, rfl, rfl, rfl⟩

/-- C7 (amended): the records passed to `_upload_embeddings` are
submitted in a single upstream `upsert_embeddings` call, with no internal
partitioning; the fixed-size batching (batch size 5, not 100) happens in
`load_document`, so each upstream call carries at most 5 records. -/
theorem uploadEmbeddings_single_call
    (cl : VectorClient) (d : List EmbRecord) :
    (uploadEmbeddings (some cl) d).2 = [d] ∧
    (∀ (env : Env) (s : ChunkSettings) (content cc ll gg : String),
      ∀ call ∈ (loadDocument env s content cc ll gg).2, call.length ≤ 5) := by
  refine ⟨uploadEmbeddings_trace cl d, ?_⟩
  intro env s content cc ll gg call hcall
  unfold loadDocument at hcall
  cases hm : env.embedding_model with
  | none =>
    rw [hm] at hcall
    cases hcall
  | some f =>
    rw [hm] at hcall
    cases hs : splitIntoChunks s content with
    | error e =>
      rw [hs] at hcall
      cases hcall
    | ok chunks =>
      rw [hs] at hcall
      dsimp only at hcall
      rw [foldl_accum _ (batchCalls env cc ll gg chunks)
        (by
          intro acc b
          unfold batchCalls
          by_cases hempty :
              (processBatch env cc ll gg b ((chunks.drop b).take 5)).isEmpty
          · simp [hempty]
          · simp [hempty])] at hcall
      simp only [List.nil_append] at hcall
      obtain ⟨b, _, hcb⟩ := List.mem_flatMap.mp hcall
      unfold batchCalls at hcb
      by_cases hempty :
          (processBatch env cc ll gg b ((chunks.drop b).take 5)).isEmpty
      · rw [if_pos hempty] at hcb
        cases hcb
      · rw [if_neg hempty] at hcb
        cases hvc : env.vector_search_client with
        | none =>
          rw [hvc] at hcb
          cases hcb
        | some cl2 =>
          rw [hvc, uploadEmbeddings_trace] at hcb
          rw [List.mem_singleton.mp hcb]
          calc (processBatch env cc ll gg b ((chunks.drop b).take 5)).length
              ≤ ((chunks.drop b).take 5).enum.length :=
                List.length_filterMap_le _ _
            _ = ((chunks.drop b).take 5).length := List.enum_length
            _ ≤ 5 := by
                rw [List.length_take]
                omega

/-- C7 (witness): the single-call behavior at a concrete client and list,
and the at-most-5 bound on the concrete `"x bad y"` ingestion trace. -/
theorem uploadEmbeddings_single_call_witness :
    (uploadEmbeddings (some testClient) [sampleRecord]).2 = [[sampleRecord]] ∧
    ∀ call ∈ (loadDocument envFull ⟨1, 0⟩ "x bad y" "georgia" "tax" "ru").2,
      call.length ≤ 5 :=
  ⟨(uploadEmbeddings_single_call testClient [sampleRecord]).1,
   (uploadEmbeddings_single_call testClient [sampleRecord]).2 envFull ⟨1, 0⟩
     "x bad y" "georgia" "tax" "ru"⟩

/-- C2: `get_relevant_context` never raises; it returns `[]` when the
vector client is uninitialized, when the embedding model is
uninitialized, when the query embedding fails (returns `None`), and when
the index query raises — and on success it returns exactly the `text`
metadata field of each neighbor, in result order. -/
theorem getRelevantContext_graceful (env : Env)
    (query cc ll gg : String) (top_k : Nat) :
    (env.vector_search_client = none →
      getRelevantContext env query cc ll gg top_k = []) ∧
    (env.embedding_model = none →
      getRelevantContext env query cc ll gg top_k = []) ∧
    (generateEmbedding env query none false = Except.ok none →
      getRelevantContext env query cc ll gg top_k = []) ∧
    (∀ cl (qe : List Int) e, env.vector_search_client = some cl →
      generateEmbedding env query none false = Except.ok (some qe) →
      cl.find_neighbors qe top_k (cc, ll, gg) = Except.error e →
      getRelevantContext env query cc ll gg top_k = []) ∧
    (∀ cl (qe : List Int) neighbors, env.vector_search_client = some cl →
      generateEmbedding env query none false = Except.ok (some qe) →
      qe ≠ [] →
      cl.find_neighbors qe top_k (cc, ll, gg) = Except.ok (some neighbors) →
      getRelevantContext env query cc ll gg top_k =
        neighbors.map (fun n => n.metadata.text)) := by
  unfold getRelevantContext
  cases hvc : env.vector_search_client with
  | none =>
    refine ⟨fun _ => ?_, fun hm => ?_, fun _ => ?_, ?_, ?_⟩
    · cases env.embedding_model <;> rfl
    · cases env.embedding_model <;> rfl
    · cases env.embedding_model <;> rfl
    · intro cl qe e hcl
      cases hcl
    · intro cl qe ns hcl
      cases hcl
  | some cl =>
    cases hm : env.embedding_model with
    | none =>
      refine ⟨?_, ?_, ?_, ?_, ?_⟩
      · intro h
        cases h
      · intro _
        rfl
      · intro _
        rfl
      · intro cl2 qe e hcl hqe
        have : generateEmbedding env query none false =
            Except.ok none := by
          unfold generateEmbedding generateEmbeddingTry
          rw [hm]
        rw [this] at hqe
        cases hqe
      · intro cl2 qe ns hcl hqe
        have : generateEmbedding env query none false =
            Except.ok none := by
          unfold generateEmbedding generateEmbeddingTry
          rw [hm]
        rw [this] at hqe
        cases hqe
    | some f =>
      refine ⟨?_, ?_, ?_, ?_, ?_⟩
      · intro h
        cases h
      · intro h
        cases h
      · intro hqe
        rw [hqe]
      · intro cl2 qe e hcl hqe hfn
        cases hcl
        rw [hqe]
        dsimp only
        by_cases hempty : qe.isEmpty
        · rw [if_pos hempty]
        · rw [if_neg hempty, hfn]
      · intro cl2 qe ns hcl hqe hne hfn
        cases hcl
        rw [hqe]
        dsimp only
        rw [if_neg (by simpa using hne), hfn]

/-- C2 (witness): retrieval with an uninitialized vector client returns
`[]`, and with everything initialized returns the neighbors' `text`
fields in order. -/
theorem getRelevantContext_graceful_witness :
    getRelevantContext envNoClient "q" "georgia" "tax" "ru" 3 = [] ∧
    getRelevantContext envFull "q" "georgia" "tax" "ru" 3 =
      ["chunk one", "chunk two"] :=
  ⟨(getRelevantContext_graceful envNoClient "q" "georgia" "tax" "ru" 3).1 rfl,
   (getRelevantContext_graceful envFull "q" "georgia" "tax" "ru" 3).2.2.2.2
     testClient [1] [⟨⟨"georgia", "tax", "ru", "chunk one"⟩⟩,
       ⟨⟨"georgia", "tax", "ru", "chunk two"⟩⟩] rfl rfl (by decide) rfl⟩

/-- C6 (counterexample): the no-context reply is not "in the target
language" — it is the same fixed Russian sentence whatever language is
requested: for target languages `"en"` and `"de"` the reply is the
identical Russian string (and the generation API is not called). -/
theorem askLegalQuestion_fixed_russian_counterexample :
    (askLegalQuestion genEnvNoCtx "q" "georgia" "tax" "en").1 = noInfoMessage ∧
    (askLegalQuestion genEnvNoCtx "q" "georgia" "tax" "de").1 = noInfoMessage ∧
    noInfoMessage =
      "Извините, я не нашел релевантной информации в законодательстве по вашему вопросу." :=
  ⟨rfl, rfl, rfl⟩

/-- C6 (amended): whenever retrieval yields no context chunks,
`ask_legal_question` returns the fixed (Russian, language-independent)
no-information message and never invokes the generation API. -/
theorem askLegalQuestion_no_context (genv : GenEnv)
    (question cc ll gg : String)
    (h : getRelevantContext genv.em question cc ll gg 3 = []) :
    askLegalQuestion genv question cc ll gg = (noInfoMessage, false) := by
  unfold askLegalQuestion
  rw [h]
  rfl

/-- C6 (witness): with a degraded retrieval layer the no-info message is
returned and the generation flag stays `false`. -/
theorem askLegalQuestion_no_context_witness :
    askLegalQuestion genEnvNoCtx "q" "georgia" "tax" "ru" = (noInfoMessage, false) :=
  askLegalQuestion_no_context genEnvNoCtx "q" "georgia" "tax" "ru" rfl

end NomadsLaws
